import Mathlib

/-!
# StockRevenueLab — verification of the fiscal-period / trading-window logic

Shallow embedding of the date-alignment logic of the StockRevenueLab
dashboard scripts:

* the `report_month` serialization `"{rocYear}_{month:02d}"` of the
  monthly-revenue data store, modelled as `List Char`;
* the monthly `report_month` filters of `fetch_prob_data`
  (src/pages/probability.py) and `fetch_heatmap_data` (src/app.py),
  modelled as boolean predicates over serialized periods, with SQL
  `LIKE` and string comparison given their byte-wise semantics;
* the announcement-date (`base_date`) computation of `fetch_timing_data`
  (src/pages/timing_lab.py), which parses the first three and the last
  two characters of `report_month`;
* the before/after price-study windows of `fetch_timing_data`;
* the two annual-return bin labelings of src/app.py;
* the first-revenue-spark selection of src/pages/insider_study.py.
-/

/-- The character for a decimal digit `n < 10` (ASCII `48 + n`). -/
def digitChar (n : Nat) : Char := Char.ofNat (48 + n)

/-- `c` is one of the characters `'0'`–`'9'`. -/
def isDigitChar (c : Char) : Bool := decide (48 ≤ c.toNat ∧ c.toNat ≤ 57)

/-- Fuel-driven big-endian decimal rendering of a natural number. -/
def natCharsAux : Nat → Nat → List Char
  | 0, _ => []
  | fuel + 1, n =>
      if n < 10 then [digitChar n]
      else natCharsAux fuel (n / 10) ++ [digitChar (n % 10)]

/-- The decimal text of a natural number, as produced by Python's `str` /
Postgres `::text` on the ROC year that is interpolated into every query. -/
def natChars (n : Nat) : List Char := natCharsAux (n + 1) n

/-- The value that a big-endian digit string denotes; this is the numeric
part of a Postgres `::int` cast of an all-digit string. -/
def charsVal (cs : List Char) : Nat :=
  cs.foldl (fun a c => a * 10 + (c.toNat - 48)) 0

/-- Postgres `::int` on a string: succeeds exactly on nonempty all-digit
strings (the only strings this code ever casts), failing otherwise. -/
def charsToNat? (cs : List Char) : Option Nat :=
  if cs ≠ [] ∧ cs.all isDigitChar then some (charsVal cs) else none

/-- The two-character month field of a serialized `report_month`
(`"{month:02d}"`: zero-padded below 10). -/
def monthChars (m : Nat) : List Char :=
  if m < 10 then ['0', digitChar m] else natChars m

/-- The data store's serialization of a disclosure period,
`"{rocYear}_{month:02d}"` (spec §3), as the list of its characters. -/
def serializePeriod (r m : Nat) : List Char :=
  natChars r ++ '_' :: monthChars m

/-- Postgres `RIGHT(s, n)`: the last `n` characters of `s`. -/
def takeRight (n : Nat) (s : List Char) : List Char := s.drop (s.length - n)

/-- Byte-wise (`C`-collation) lexicographic `<=` on strings, the order
Postgres uses for `report_month <= '{minguo_year}_11'`. -/
def sqlLeB : List Char → List Char → Bool
  | [], _ => true
  | _ :: _, [] => false
  | a :: as, b :: bs =>
      if a.toNat < b.toNat then true
      else if b.toNat < a.toNat then false
      else sqlLeB as bs

/-- SQL `report_month LIKE '{y}_%'`: the pattern is the decimal digits of
`y`, then `_` (a single-character wildcard in `LIKE`), then `%` (any
suffix); so it holds iff the digits of `y` are a proper prefix of the
string with at least one further character. -/
def likeYearMonthPat (y : Nat) (s : List Char) : Bool :=
  decide (natChars y <+: s) && decide ((natChars y).length < s.length)

/-- The `report_month` filter of `fetch_prob_data` (src/pages/probability.py,
lines 62–65): `report_month = '{prev_minguo_year}_12' OR (report_month LIKE
'{minguo_year}_%' AND report_month <= '{minguo_year}_11')`. -/
def probMonthlyFilter (y : Nat) (s : List Char) : Bool :=
  decide (s = serializePeriod (y - 1) 12) ||
    (likeYearMonthPat y s && sqlLeB s (serializePeriod y 11))

/-- The `report_month` filter of `fetch_heatmap_data` and
`fetch_stat_summary` (src/app.py, lines 143–144 and 210–211):
`report_month = '{prev_minguo_year}_12' OR (report_month LIKE
'{minguo_year}_%' AND LENGTH(report_month) <= 7)`. -/
def heatmapMonthlyFilter (y : Nat) (s : List Char) : Bool :=
  decide (s = serializePeriod (y - 1) 12) ||
    (likeYearMonthPat y s && decide (s.length ≤ 7))

/-- `minguo_year = int(year) - 1911` as computed at every call site. -/
def minguoYearOf (year : Nat) : Nat := year - 1911

/-- `prev_minguo_year = minguo_year - 1` as computed at every call site. -/
def prevMinguoYearOf (year : Nat) : Nat := minguoYearOf year - 1

/-- The 12 disclosure periods belonging to an analysis year (spec §4.1):
`(prevRocYear, 12)`, then `(rocYear, 1)` through `(rocYear, 11)`. This is
the spec-side operation that the query filters realize. -/
def periodsForAnalysisYear (Y : Nat) : List (Nat × Nat) :=
  [(Y - 1912, 12), (Y - 1911, 1), (Y - 1911, 2), (Y - 1911, 3), (Y - 1911, 4),
   (Y - 1911, 5), (Y - 1911, 6), (Y - 1911, 7), (Y - 1911, 8), (Y - 1911, 9),
   (Y - 1911, 10), (Y - 1911, 11)]

/-- Chronological order on disclosure periods `(rocYear, month)`. -/
def periodLt (p q : Nat × Nat) : Prop := p.1 < q.1 ∨ (p.1 = q.1 ∧ p.2 < q.2)

/-- A Gregorian calendar date. -/
structure GDate where
  year : Nat
  month : Nat
  day : Nat
deriving DecidableEq, Repr

/-- The `base_date` computation of `fetch_timing_data`
(src/pages/timing_lab.py, lines 81–84):

`CASE WHEN RIGHT(report_month, 2) = '12' THEN (LEFT(report_month, 3)::int
+ 1 + 1911)::text || '-01-10' ELSE (LEFT(report_month, 3)::int +
1911)::text || '-' || LPAD((RIGHT(report_month, 2)::int + 1)::text, 2,
'0') || '-10' END::date`.

A failed `::int` or `::date` cast is `none`. -/
def baseDate (s : List Char) : Option GDate :=
  if takeRight 2 s = monthChars 12 then
    match charsToNat? (s.take 3) with
    | some y => some ⟨y + 1 + 1911, 1, 10⟩
    | none => none
  else
    match charsToNat? (s.take 3), charsToNat? (takeRight 2 s) with
    | some y, some m => if m + 1 ≤ 12 then some ⟨y + 1911, m + 1, 10⟩ else none
    | some _, none => none
    | none, _ => none

/-- The spec's closed-form announcement-date formula (spec §4.1):
`announcementDate(rocYear, month) = GregorianDate(year = rocYear + 1911 +
(1 if month == 12 else 0), month = (1 if month == 12 else month + 1),
day = 10)`. Spec-side definition, to be compared with `baseDate`. -/
def announcementDateSpec (r m : Nat) : GDate :=
  if m = 12 then ⟨r + 1912, 1, 10⟩ else ⟨r + 1911, m + 1, 10⟩

/-! ## Price-study windows of `fetch_timing_data` (src/pages/timing_lab.py, lines 100–104)

Trading dates and the announcement anchor are modelled as day numbers in `ℤ`;
the SQL `interval 'k days'` arithmetic is addition of `k` days. -/

/-- `c.date >= base_date - interval '38 days' AND c.date < base_date - interval '9 days'`. -/
def preMonthWindow (a d : ℤ) : Prop := a - 38 ≤ d ∧ d < a - 9

/-- `c.date >= base_date - interval '9 days' AND c.date <= base_date - interval '3 days'`. -/
def preWeekWindow (a d : ℤ) : Prop := a - 9 ≤ d ∧ d ≤ a - 3

/-- `c.date > base_date - interval '3 days' AND c.date <= base_date + interval '4 days'`. -/
def announceWeekWindow (a d : ℤ) : Prop := a - 3 < d ∧ d ≤ a + 4

/-- `c.date > base_date + interval '4 days' AND c.date <= base_date + interval '11 days'`. -/
def afterWeekWindow (a d : ℤ) : Prop := a + 4 < d ∧ d ≤ a + 11

/-- `c.date > base_date + interval '11 days' AND c.date <= base_date + interval '30 days'`. -/
def afterMonthWindow (a d : ℤ) : Prop := a + 11 < d ∧ d ≤ a + 30

/-- Spec-side pre-week window `[anchor−9d, anchor−3d)` (spec §4.1). -/
def specPreWeekWindow (a d : ℤ) : Prop := a - 9 ≤ d ∧ d < a - 3

/-- Spec-side announcement-week window `[anchor−3d, anchor+4d)` (spec §4.1). -/
def specAnnounceWeekWindow (a d : ℤ) : Prop := a - 3 ≤ d ∧ d < a + 4

/-- Spec-side post-week window `[anchor+4d, anchor+11d)` (spec §4.1). -/
def specPostWeekWindow (a d : ℤ) : Prop := a + 4 ≤ d ∧ d < a + 11

/-- Spec-side post-month window `[anchor+11d, anchor+30d)` (spec §4.1). -/
def specPostMonthWindow (a d : ℤ) : Prop := a + 11 ≤ d ∧ d < a + 30

/-! ## The two annual-return bin labelings of src/app.py -/

/-- Postgres `::text` of an integer. -/
def intChars (i : ℤ) : List Char :=
  if i < 0 then '-' :: natChars i.natAbs else natChars i.toNat

/-- Postgres `LPAD(s, n, fill)`: left-pad to length `n`, truncating on the
right when `s` is longer than `n`. -/
def lpad (n : Nat) (fill : Char) (s : List Char) : List Char :=
  if n ≤ s.length then s.take n else List.replicate (n - s.length) fill ++ s

/-- The `return_bin` CASE of `fetch_heatmap_data` / `fetch_stat_summary`
(src/app.py, lines 114–126 and 181–193), on annual bar open/close prices;
each WHEN recomputes `((year_close - year_open) / year_open) * 100`. -/
def heatmapReturnBin (yearOpen yearClose : ℚ) : String :=
  if (yearClose - yearOpen) / yearOpen * 100 < -80 then "00. 下跌-80%以下"
  else if (yearClose - yearOpen) / yearOpen * 100 < -60 then "01. 下跌-60%至-80%"
  else if (yearClose - yearOpen) / yearOpen * 100 < -40 then "02. 下跌-40%至-60%"
  else if (yearClose - yearOpen) / yearOpen * 100 < -20 then "03. 下跌-20%至-40%"
  else if (yearClose - yearOpen) / yearOpen * 100 < 0 then "04. 下跌0%至-20%"
  else if 1000 ≤ (yearClose - yearOpen) / yearOpen * 100 then "11. 漲幅1000%+"
  else
    String.mk (lpad 2 '0' (intChars ((yearClose - yearOpen) / yearOpen * 100).floor)) ++
      ". " ++ String.mk (intChars ((yearClose - yearOpen) / yearOpen * 100).floor) ++
      "-" ++ String.mk (intChars (((yearClose - yearOpen) / yearOpen * 100).floor + 100)) ++
      "%"

/-- The return-bin CASE of the deep-dive `detail_query` (src/app.py, lines
595–601), on the raw ratio `(year_close - year_open) / year_open`. -/
def detailReturnBin (yearOpen yearClose : ℚ) : String :=
  if (yearClose - yearOpen) / yearOpen < 0 then "00. 下跌"
  else if 10 ≤ (yearClose - yearOpen) / yearOpen then "11. 1000%+"
  else
    String.mk (lpad 2 '0' (intChars ((yearClose - yearOpen) / yearOpen).floor)) ++
      ". " ++ String.mk (intChars (((yearClose - yearOpen) / yearOpen).floor * 100)) ++
      "-" ++ String.mk (intChars ((((yearClose - yearOpen) / yearOpen).floor + 1) * 100)) ++
      "%"

/-! ## First-revenue-spark selection (src/pages/insider_study.py, lines 44–53,
and src/pages/timing_lab.py, lines 73–89)

One stock's `monthly_revenue` partition, in the window's `ORDER BY
report_month` order, is a list of rows; `month` is the chronological key and
`yoy` the (nullable) growth metric. SQL window functions are evaluated after
the `WHERE` clause of their own SELECT, so `LAG` in `first_events` ranges
over the already-thresholded rows, while `LAG` in `raw_events` of
`fetch_timing_data` ranges over all rows of the window. -/
structure RevRow where
  month : Nat
  yoy : Option ℚ
deriving DecidableEq, Repr

/-- `yoy_pct >= threshold` (NULL fails the comparison). -/
def qualRow (thr : ℚ) (row : RevRow) : Bool :=
  match row.yoy with
  | some v => decide (thr ≤ v)
  | none => false

/-- Pair each row with `LAG(yoy_pct)` over the list: the previous row's
`yoy` value, `none` for the first row (SQL `LAG` yields NULL both for the
first row and when the previous value is NULL). -/
def lagZip (rows : List RevRow) : List (RevRow × Option ℚ) :=
  rows.zip (none :: rows.map (fun row => row.yoy))

/-- The `first_events` CTE of insider_study.py: threshold filter first,
then `LAG` over the surviving rows. -/
def firstEvents (thr : ℚ) (rows : List RevRow) : List (RevRow × Option ℚ) :=
  lagZip (rows.filter (qualRow thr))

/-- `prev IS NULL OR prev < threshold`. -/
def belowOrNull (thr : ℚ) (prev : Option ℚ) : Bool :=
  match prev with
  | none => true
  | some v => decide (v < thr)

/-- The `filtered_first` CTE of insider_study.py:
`SELECT * FROM first_events WHERE prev_yoy IS NULL OR prev_yoy < threshold`. -/
def filteredFirst (thr : ℚ) (rows : List RevRow) : List (RevRow × Option ℚ) :=
  (firstEvents thr rows).filter (fun p => belowOrNull thr p.2)

/-- The `spark_events` selection of `fetch_timing_data` (timing_lab.py):
`LAG` over all rows of the window first, then
`metric >= limit AND (prev_metric < limit OR prev_metric IS NULL)`. -/
def sparkEvents (thr : ℚ) (rows : List RevRow) : List (RevRow × Option ℚ) :=
  (lagZip rows).filter (fun p => qualRow thr p.1 && belowOrNull thr p.2)

/-- A concrete one-stock revenue series: the threshold-100 spark months. -/
def exampleRevRows : List RevRow :=
  [⟨1, some 150⟩, ⟨2, some 150⟩, ⟨3, some 50⟩, ⟨4, some 150⟩]

theorem natCharsAux_fuel {f₁ f₂ n : Nat} (h₁ : n < f₁) (h₂ : n < f₂) :
    natCharsAux f₁ n = natCharsAux f₂ n := by
  induction f₁ generalizing f₂ n with
  | zero => omega
  | succ f ih =>
      cases f₂ with
      | zero => omega
      | succ f' =>
          simp only [natCharsAux]
          by_cases h : n < 10
          · simp [h]
          · have hd : n / 10 < f := by omega
            have hd' : n / 10 < f' := by omega
            simp [h, ih hd hd']

theorem natChars_lt10 {n : Nat} (h : n < 10) : natChars n = [digitChar n] := by
  simp [natChars, natCharsAux, h]

theorem natCharsAux_succ (f n : Nat) :
    natCharsAux (f + 1) n =
      if n < 10 then [digitChar n] else natCharsAux f (n / 10) ++ [digitChar (n % 10)] := rfl

theorem natChars_ge10 {n : Nat} (h : 10 ≤ n) :
    natChars n = natChars (n / 10) ++ [digitChar (n % 10)] := by
  have h1 : ¬ n < 10 := by omega
  show natCharsAux (n + 1) n = _
  rw [natCharsAux_succ, if_neg h1,
    natCharsAux_fuel (show n / 10 < n by exact Nat.div_lt_self (by omega) (by omega))
      (Nat.lt_succ_self _)]
  rfl

theorem natChars_ne_nil (n : Nat) : natChars n ≠ [] := by
  by_cases h : n < 10
  · rw [natChars_lt10 h]; simp
  · rw [natChars_ge10 (by omega)]; simp

theorem digitChar_isDigit {d : Nat} (h : d < 10) : isDigitChar (digitChar d) = true := by
  interval_cases d <;> decide

theorem natChars_all_digits (n : Nat) : ∀ c ∈ natChars n, isDigitChar c = true := by
  induction n using Nat.strong_induction_on with
  | _ n ih =>
      by_cases h : n < 10
      · rw [natChars_lt10 h]
        intro c hc
        simp only [List.mem_singleton] at hc
        subst hc
        exact digitChar_isDigit h
      · rw [natChars_ge10 (by omega)]
        intro c hc
        rcases List.mem_append.mp hc with hc | hc
        · exact ih (n / 10) (Nat.div_lt_self (by omega) (by omega)) c hc
        · simp only [List.mem_singleton] at hc
          subst hc
          exact digitChar_isDigit (Nat.mod_lt _ (by omega))

theorem natChars_length_le_iff (n k : Nat) (hk : 1 ≤ k) :
    (natChars n).length ≤ k ↔ n < 10 ^ k := by
  induction n using Nat.strong_induction_on generalizing k with
  | _ n ih =>
      by_cases h : n < 10
      · rw [natChars_lt10 h]
        simp only [List.length_singleton]
        constructor
        · intro _
          calc n < 10 ^ 1 := by omega
            _ ≤ 10 ^ k := Nat.pow_le_pow_right (by omega) hk
        · intro _; exact hk
      · rw [natChars_ge10 (by omega)]
        rw [List.length_append, List.length_singleton]
        have hpos : 1 ≤ (natChars (n / 10)).length :=
          List.length_pos.mpr (natChars_ne_nil _)
        by_cases hk1 : k = 1
        · subst hk1
          rw [pow_one]
          omega
        · have hk2 : 2 ≤ k := by omega
          have ihd := ih (n / 10) (Nat.div_lt_self (by omega) (by omega)) (k - 1) (by omega)
          have hsplit : 10 ^ k = 10 ^ (k - 1) * 10 := by
            rw [← Nat.pow_succ]
            congr 1
            omega
          constructor
          · intro hlen
            have h1 : (natChars (n / 10)).length ≤ k - 1 := by omega
            have h2 : n / 10 < 10 ^ (k - 1) := ihd.mp h1
            have h3 : n < 10 ^ (k - 1) * 10 :=
              (Nat.div_lt_iff_lt_mul (by omega : 0 < 10)).mp h2
            omega
          · intro hn
            have h2 : n / 10 < 10 ^ (k - 1) := by
              apply (Nat.div_lt_iff_lt_mul (by omega : 0 < 10)).mpr
              omega
            have := ihd.mpr h2
            omega

theorem natChars_length_eq3 {r : Nat} (h1 : 100 ≤ r) (h2 : r ≤ 999) :
    (natChars r).length = 3 := by
  have ha := (natChars_length_le_iff r 3 (by omega)).mpr (by omega)
  have hb : ¬ (natChars r).length ≤ 2 := by
    intro hc
    have := (natChars_length_le_iff r 2 (by omega)).mp hc
    omega
  omega

theorem natChars_length_le2 {r : Nat} (h : r < 100) : (natChars r).length ≤ 2 :=
  (natChars_length_le_iff r 2 (by omega)).mpr (by omega)

theorem natChars_length_le4 {r : Nat} (h : r ≤ 9999) : (natChars r).length ≤ 4 :=
  (natChars_length_le_iff r 4 (by omega)).mpr (by omega)

theorem natChars_length_mono {r y : Nat} (h : r ≤ y) :
    (natChars r).length ≤ (natChars y).length := by
  have hpos : 1 ≤ (natChars y).length := List.length_pos.mpr (natChars_ne_nil _)
  have hy : y < 10 ^ (natChars y).length :=
    (natChars_length_le_iff y _ hpos).mp (Nat.le_refl _)
  exact (natChars_length_le_iff r _ hpos).mpr (by omega)

theorem digitChar_toNat {d : Nat} (h : d < 10) : (digitChar d).toNat = 48 + d := by
  interval_cases d <;> decide

theorem charsVal_append_singleton (A : List Char) (c : Char) :
    charsVal (A ++ [c]) = charsVal A * 10 + (c.toNat - 48) := by
  simp [charsVal, List.foldl_append]

theorem charsVal_natChars (n : Nat) : charsVal (natChars n) = n := by
  induction n using Nat.strong_induction_on with
  | _ n ih =>
      by_cases h : n < 10
      · rw [natChars_lt10 h]
        simp [charsVal, digitChar_toNat h]
      · rw [natChars_ge10 (by omega), charsVal_append_singleton,
          ih (n / 10) (Nat.div_lt_self (by omega) (by omega)),
          digitChar_toNat (Nat.mod_lt _ (by omega))]
        omega

theorem charsToNat?_natChars (n : Nat) : charsToNat? (natChars n) = some n := by
  rw [charsToNat?, if_pos, charsVal_natChars]
  exact ⟨natChars_ne_nil n, List.all_eq_true.mpr (natChars_all_digits n)⟩

theorem isDigitChar_iff {c : Char} : isDigitChar c = true ↔ 48 ≤ c.toNat ∧ c.toNat ≤ 57 := by
  simp [isDigitChar]

theorem charsVal_lt (cs : List Char) (h : ∀ c ∈ cs, isDigitChar c = true) :
    charsVal cs < 10 ^ cs.length := by
  induction cs using List.reverseRecOn with
  | nil => simp [charsVal]
  | append_singleton A c ih =>
      rw [charsVal_append_singleton]
      have hA : charsVal A < 10 ^ A.length := ih fun x hx => h x (by simp [hx])
      have hc : c.toNat - 48 ≤ 9 := by
        have := isDigitChar_iff.mp (h c (by simp))
        omega
      rw [List.length_append, List.length_singleton, Nat.pow_succ]
      omega

theorem charsToNat?_none_of_underscore {cs : List Char} (h : '_' ∈ cs) :
    charsToNat? cs = none := by
  rw [charsToNat?, if_neg]
  rintro ⟨-, hall⟩
  have := List.all_eq_true.mp hall '_' h
  simp [isDigitChar] at this

theorem charsToNat?_lt {cs : List Char} {n : Nat} (h : charsToNat? cs = some n) :
    n < 10 ^ cs.length := by
  rw [charsToNat?] at h
  split at h
  · rename_i hcond
    cases h
    exact charsVal_lt cs (List.all_eq_true.mp hcond.2)
  · exact absurd h (by simp)

theorem monthChars_length {m : Nat} (h : m ≤ 12) : (monthChars m).length = 2 := by
  rw [monthChars]
  by_cases h10 : m < 10
  · simp [h10]
  · rw [if_neg h10]
    have ha : (natChars m).length ≤ 2 := natChars_length_le2 (by omega)
    have hb : ¬ (natChars m).length ≤ 1 := by
      intro hc
      have := (natChars_length_le_iff m 1 (by omega)).mp hc
      omega
    omega

theorem serializePeriod_length {r m : Nat} (h : m ≤ 12) :
    (serializePeriod r m).length = (natChars r).length + 3 := by
  simp [serializePeriod, monthChars_length h]

theorem takeRight_serializePeriod {r m : Nat} (h : m ≤ 12) :
    takeRight 2 (serializePeriod r m) = monthChars m := by
  rw [takeRight, serializePeriod_length h]
  show (natChars r ++ '_' :: monthChars m).drop ((natChars r).length + 3 - 2) = _
  rw [show natChars r ++ '_' :: monthChars m = (natChars r ++ ['_']) ++ monthChars m by simp,
    show (natChars r).length + 3 - 2 = (natChars r ++ ['_']).length by simp,
    List.drop_left]

theorem take3_serializePeriod {r m : Nat} (h1 : 100 ≤ r) (h2 : r ≤ 999) :
    (serializePeriod r m).take 3 = natChars r := by
  rw [serializePeriod, ← natChars_length_eq3 h1 h2, List.take_left]

theorem underscore_mem_take3 {r m : Nat} (h : (natChars r).length ≤ 2) :
    '_' ∈ (serializePeriod r m).take 3 := by
  rw [serializePeriod, List.take_append_eq_append_take]
  refine List.mem_append.mpr (Or.inr ?_)
  rcases hk : 3 - (natChars r).length with _ | k
  · omega
  · simp

theorem sqlLeB_append_same (p a b : List Char) :
    sqlLeB (p ++ a) (p ++ b) = sqlLeB a b := by
  induction p with
  | nil => rfl
  | cons c p ih => simp [sqlLeB, ih]

theorem digit_list_eq_of_append_underscore :
    ∀ {A C : List Char} {B D : List Char},
      (∀ c ∈ A, isDigitChar c = true) → (∀ c ∈ C, isDigitChar c = true) →
      A ++ '_' :: B = C ++ '_' :: D → A = C ∧ B = D := by
  intro A
  induction A with
  | nil =>
      intro C B D _ hC h
      cases C with
      | nil => simpa using h
      | cons c C' =>
          exfalso
          simp only [List.nil_append, List.cons_append, List.cons.injEq] at h
          have := hC c (by simp)
          rw [← h.1] at this
          simp [isDigitChar] at this
  | cons a A' ih =>
      intro C B D hA hC h
      cases C with
      | nil =>
          exfalso
          simp only [List.cons_append, List.nil_append, List.cons.injEq] at h
          have := hA a (by simp)
          rw [h.1] at this
          simp [isDigitChar] at this
      | cons c C' =>
          simp only [List.cons_append, List.cons.injEq] at h
          obtain ⟨hac, htail⟩ := h
          obtain ⟨h1, h2⟩ := ih (fun x hx => hA x (by simp [hx]))
            (fun x hx => hC x (by simp [hx])) htail
          exact ⟨by rw [hac, h1], h2⟩

theorem monthChars_inj :
    ∀ m < 13, ∀ m' < 13, monthChars m = monthChars m' → m = m' := by decide

theorem monthChars_ne_12 {m : Nat} (h1 : 1 ≤ m) (h2 : m ≤ 11) :
    monthChars m ≠ monthChars 12 := by
  interval_cases m <;> decide

theorem charsToNat?_monthChars {m : Nat} (h : m ≤ 12) :
    charsToNat? (monthChars m) = some m := by
  interval_cases m <;> decide

theorem serializePeriod_inj {r m r' m' : Nat} (hm : m ≤ 12) (hm' : m' ≤ 12)
    (h : serializePeriod r m = serializePeriod r' m') : r = r' ∧ m = m' := by
  obtain ⟨h1, h2⟩ := digit_list_eq_of_append_underscore
    (natChars_all_digits r) (natChars_all_digits r') h
  constructor
  · have := charsVal_natChars r
    rw [h1, charsVal_natChars] at this
    omega
  · have hm2 := charsToNat?_monthChars hm
    rw [h2, charsToNat?_monthChars hm'] at hm2
    exact (Option.some.injEq _ _).mp hm2.symm

theorem digit_prefix_of_append {xs zs rest : List Char}
    (hx : ∀ c ∈ xs, isDigitChar c = true) (hlen : zs.length ≤ xs.length)
    (hp : xs <+: zs ++ '_' :: rest) : xs = zs := by
  have htake := List.prefix_iff_eq_take.mp hp
  by_cases hgt : zs.length < xs.length
  · exfalso
    obtain ⟨t, ht⟩ := hp
    have hsplit : xs.take zs.length ++ (xs.drop zs.length ++ t) = zs ++ '_' :: rest := by
      rw [← List.append_assoc, List.take_append_drop]
      exact ht
    have hlen2 : (xs.take zs.length).length = zs.length := by
      rw [List.length_take]
      omega
    obtain ⟨-, heq⟩ := List.append_inj hsplit hlen2
    cases hd : xs.drop zs.length with
    | nil =>
        have hld := congrArg List.length hd
        rw [List.length_drop] at hld
        simp at hld
        omega
    | cons c cs =>
        rw [hd] at heq
        simp only [List.cons_append, List.cons.injEq] at heq
        have hcmem : c ∈ xs := by
          refine List.drop_subset zs.length xs ?_
          rw [hd]
          exact List.mem_cons_self c cs
        have hdig := hx c hcmem
        rw [heq.1] at hdig
        simp [isDigitChar] at hdig
  · have heq : xs.length = zs.length := by omega
    rw [htake, heq, List.take_left]

theorem like_iff {y r m : Nat} (hr : r ≤ y) (hm : m ≤ 12) :
    likeYearMonthPat y (serializePeriod r m) = true ↔ r = y := by
  rw [likeYearMonthPat, Bool.and_eq_true, decide_eq_true_iff, decide_eq_true_iff]
  constructor
  · rintro ⟨hp, -⟩
    have := digit_prefix_of_append (natChars_all_digits y) (natChars_length_mono hr) hp
    have hv := charsVal_natChars y
    rw [this, charsVal_natChars] at hv
    omega
  · rintro rfl
    refine ⟨⟨'_' :: monthChars m, rfl⟩, ?_⟩
    rw [serializePeriod_length hm]
    omega

theorem sqlLeB_month {m : Nat} (h1 : 1 ≤ m) (h2 : m ≤ 12) :
    (sqlLeB (monthChars m) (monthChars 11) = true ↔ m ≤ 11) := by
  interval_cases m <;> decide

theorem sqlLeB_serialize_iff {y m : Nat} (h1 : 1 ≤ m) (h2 : m ≤ 12) :
    (sqlLeB (serializePeriod y m) (serializePeriod y 11) = true ↔ m ≤ 11) := by
  rw [serializePeriod, serializePeriod,
    show natChars y ++ '_' :: monthChars m = (natChars y ++ ['_']) ++ monthChars m by simp,
    show natChars y ++ '_' :: monthChars 11 = (natChars y ++ ['_']) ++ monthChars 11 by simp,
    sqlLeB_append_same]
  exact sqlLeB_month h1 h2

set_option maxHeartbeats 1000000 in
theorem mem_periods_iff {Y r m : Nat} (hY : 1912 ≤ Y) (hm : m ≤ 12) :
    (r, m) ∈ periodsForAnalysisYear Y ↔
      (r = Y - 1912 ∧ m = 12) ∨ (r = Y - 1911 ∧ 1 ≤ m ∧ m ≤ 11) := by
  simp only [periodsForAnalysisYear, List.mem_cons, List.mem_singleton,
    List.not_mem_nil, or_false, Prod.mk.injEq]
  omega

theorem serializePeriod_eq_iff {Y r m : Nat} (hY : 1912 ≤ Y) (hm : m ≤ 12) :
    serializePeriod r m = serializePeriod (Y - 1911 - 1) 12 ↔
      (r = Y - 1912 ∧ m = 12) := by
  constructor
  · intro h
    obtain ⟨h1, h2⟩ := serializePeriod_inj hm (by omega) h
    omega
  · rintro ⟨h1, h2⟩
    have hYr : Y - 1911 - 1 = r := by omega
    rw [hYr, h2]

theorem probMonthlyFilter_iff {Y r m : Nat} (hY : 1912 ≤ Y) (hr1 : 1 ≤ r)
    (hm1 : 1 ≤ m) (hm2 : m ≤ 12) (hr2 : r ≤ Y - 1911) :
    probMonthlyFilter (Y - 1911) (serializePeriod r m) = true ↔
      (r, m) ∈ periodsForAnalysisYear Y := by
  rw [mem_periods_iff hY hm2, probMonthlyFilter, Bool.or_eq_true, Bool.and_eq_true,
    decide_eq_true_iff, serializePeriod_eq_iff hY hm2]
  constructor
  · rintro (⟨h1, h2⟩ | ⟨hlike, hle⟩)
    · left
      exact ⟨h1, h2⟩
    · have hry := (like_iff hr2 hm2).mp hlike
      right
      have hle2 := hle
      rw [hry] at hle2
      exact ⟨by omega, hm1, (@sqlLeB_serialize_iff (Y - 1911) m hm1 hm2).mp hle2⟩
  · rintro (⟨h1, h2⟩ | ⟨h1, h2, h3⟩)
    · left
      exact ⟨h1, h2⟩
    · right
      rw [← h1]
      exact ⟨(like_iff (Nat.le_refl r) hm2).mpr rfl,
        (sqlLeB_serialize_iff hm1 hm2).mpr h3⟩

theorem heatmapMonthlyFilter_iff {Y r m : Nat} (hY : 1912 ≤ Y) (hY2 : Y ≤ 11910)
    (hr1 : 1 ≤ r) (hm1 : 1 ≤ m) (hm2 : m ≤ 12) (hr2 : r ≤ Y - 1911) :
    heatmapMonthlyFilter (Y - 1911) (serializePeriod r m) = true ↔
      ((r, m) ∈ periodsForAnalysisYear Y ∨ (r = Y - 1911 ∧ m = 12)) := by
  rw [mem_periods_iff hY hm2, heatmapMonthlyFilter, Bool.or_eq_true, Bool.and_eq_true,
    decide_eq_true_iff, decide_eq_true_iff, serializePeriod_eq_iff hY hm2]
  constructor
  · rintro (⟨h1, h2⟩ | ⟨hlike, -⟩)
    · left
      left
      exact ⟨h1, h2⟩
    · have hry := (like_iff hr2 hm2).mp hlike
      omega
  · intro hcase
    have hor : (r = Y - 1912 ∧ m = 12) ∨ r = Y - 1911 := by omega
    rcases hor with ⟨h1, h2⟩ | h1
    · left
      exact ⟨h1, h2⟩
    · right
      rw [← h1]
      refine ⟨(like_iff (Nat.le_refl r) hm2).mpr rfl, ?_⟩
      rw [serializePeriod_length hm2]
      have h4 : (natChars r).length ≤ 4 := natChars_length_le4 (by omega)
      omega

theorem baseDate_mid {r m : Nat} (h1 : 100 ≤ r) (h2 : r ≤ 999) (hm1 : 1 ≤ m)
    (hm2 : m ≤ 11) :
    baseDate (serializePeriod r m) = some ⟨r + 1911, m + 1, 10⟩ := by
  have hc : takeRight 2 (serializePeriod r m) = monthChars m :=
    takeRight_serializePeriod (by omega)
  have hne : ¬ takeRight 2 (serializePeriod r m) = monthChars 12 := by
    rw [hc]
    exact monthChars_ne_12 hm1 hm2
  rw [baseDate, if_neg hne, take3_serializePeriod h1 h2, charsToNat?_natChars, hc,
    charsToNat?_monthChars (by omega : m ≤ 12)]
  show (if m + 1 ≤ 12 then some (GDate.mk (r + 1911) (m + 1) 10) else none) = _
  rw [if_pos (by omega : m + 1 ≤ 12)]

theorem baseDate_dec {r : Nat} (h1 : 100 ≤ r) (h2 : r ≤ 999) :
    baseDate (serializePeriod r 12) = some ⟨r + 1912, 1, 10⟩ := by
  have hc : takeRight 2 (serializePeriod r 12) = monthChars 12 :=
    takeRight_serializePeriod (by omega)
  rw [baseDate, if_pos hc, take3_serializePeriod h1 h2, charsToNat?_natChars]

theorem baseDate_small_none {r m : Nat} (h1 : r < 100) (hm : m ≤ 12) :
    baseDate (serializePeriod r m) = none := by
  have hu : '_' ∈ (serializePeriod r m).take 3 :=
    underscore_mem_take3 (natChars_length_le2 h1)
  have hn : charsToNat? ((serializePeriod r m).take 3) = none :=
    charsToNat?_none_of_underscore hu
  rw [baseDate, hn]
  split
  · rfl
  · rfl

theorem baseDate_big_year {r m : Nat} (h1 : 1000 ≤ r) (hm2 : m ≤ 12) {d : GDate}
    (h : baseDate (serializePeriod r m) = some d) :
    d.year ≠ (announcementDateSpec r m).year := by
  have hlen : ((serializePeriod r m).take 3).length = 3 := by
    rw [List.length_take, serializePeriod_length hm2]
    omega
  rw [baseDate] at h
  split at h
  · rename_i hcond
    rw [takeRight_serializePeriod hm2] at hcond
    have hm12 : m = 12 := monthChars_inj m (by omega) 12 (by omega) hcond
    cases hy : charsToNat? ((serializePeriod r m).take 3) with
    | none =>
        rw [hy] at h
        exact absurd h (by simp)
    | some p =>
        rw [hy] at h
        have hp : p < 10 ^ 3 := by
          have := charsToNat?_lt hy
          rwa [hlen] at this
        norm_num at hp
        cases h
        rw [announcementDateSpec, if_pos hm12]
        show p + 1 + 1911 ≠ r + 1912
        omega
  · cases hy : charsToNat? ((serializePeriod r m).take 3) with
    | none =>
        rw [hy] at h
        exact absurd h (by simp)
    | some p =>
        rename_i hcond
        rw [takeRight_serializePeriod hm2] at hcond
        have hm12 : m ≠ 12 := by
          intro hc
          rw [hc] at hcond
          exact hcond rfl
        rw [hy] at h
        have hp : p < 10 ^ 3 := by
          have := charsToNat?_lt hy
          rwa [hlen] at this
        norm_num at hp
        cases hq : charsToNat? (takeRight 2 (serializePeriod r m)) with
        | none =>
            rw [hq] at h
            exact absurd h (by simp)
        | some q =>
            rw [hq] at h
            have h2 : (if q + 1 ≤ 12 then some (GDate.mk (p + 1911) (q + 1) 10)
                else none) = some d := h
            by_cases hq12 : q + 1 ≤ 12
            · rw [if_pos hq12] at h2
              cases h2
              rw [announcementDateSpec, if_neg hm12]
              show p + 1911 ≠ r + 1911
              omega
            · rw [if_neg hq12] at h2
              exact absurd h2 (by simp)

theorem firstEvents_prev_ge (thr : ℚ) (rows : List RevRow) :
    ∀ p ∈ firstEvents thr rows, ∀ v, p.2 = some v → thr ≤ v := by
  intro p hp v hv
  have hmem := (List.of_mem_zip hp).2
  rcases List.mem_cons.mp hmem with h | h
  · rw [hv] at h
    exact absurd h (by simp)
  · obtain ⟨row, hrow, hyoy⟩ := List.mem_map.mp h
    have hrowq : qualRow thr row = true := (List.mem_filter.mp hrow).2
    rw [qualRow] at hrowq
    cases hy : row.yoy with
    | none =>
        rw [hy] at hrowq
        simp at hrowq
    | some w =>
        rw [hy] at hrowq
        have hle : thr ≤ w := of_decide_eq_true hrowq
        rw [hv, hy] at hyoy
        cases hyoy
        exact hle

theorem filteredFirst_eq (thr : ℚ) (rows : List RevRow) :
    filteredFirst thr rows =
      ((rows.filter (qualRow thr)).take 1).map (fun row => (row, none)) := by
  rw [filteredFirst, firstEvents]
  cases hq : rows.filter (qualRow thr) with
  | nil => rfl
  | cons x xs =>
      have hxq : qualRow thr x = true := by
        have : x ∈ rows.filter (qualRow thr) := by
          rw [hq]
          exact List.mem_cons_self x xs
        exact (List.mem_filter.mp this).2
      show ((x :: xs).zip (none :: (x :: xs).map (fun row => row.yoy))).filter _ =
        ((x :: xs).take 1).map (fun row => (row, none))
      rw [List.zip_cons_cons, List.filter_cons]
      have hhead : belowOrNull thr ((x, (none : Option ℚ))).2 = true := rfl
      rw [if_pos hhead]
      have hrest : ∀ p ∈ xs.zip ((x :: xs).map (fun row => row.yoy)),
          ¬ belowOrNull thr p.2 = true := by
        intro p hp
        have hmem := (List.of_mem_zip hp).2
        obtain ⟨row, hrow, hyoy⟩ := List.mem_map.mp hmem
        have hrowq : qualRow thr row = true := by
          have hr2 : row ∈ rows.filter (qualRow thr) := by
            rw [hq]
            exact hrow
          exact (List.mem_filter.mp hr2).2
        rw [qualRow] at hrowq
        cases hy : row.yoy with
        | none =>
            rw [hy] at hrowq
            simp at hrowq
        | some w =>
            rw [hy] at hrowq
            have hle : thr ≤ w := of_decide_eq_true hrowq
            rw [← hyoy, hy]
            show ¬ (decide (w < thr)) = true
            simp only [decide_eq_true_iff]
            exact not_lt.mpr hle
      rw [List.filter_eq_nil_iff.mpr hrest]
      rfl

theorem filteredFirst_minimal (thr : ℚ) (rows : List RevRow)
    (hsorted : List.Pairwise (fun a b => a.month < b.month) rows) :
    ∀ p ∈ filteredFirst thr rows, qualRow thr p.1 = true ∧
      ∀ row ∈ rows, qualRow thr row = true → p.1.month ≤ row.month := by
  rw [filteredFirst_eq]
  intro p hp
  cases hq : rows.filter (qualRow thr) with
  | nil =>
      rw [hq] at hp
      simp at hp
  | cons x xs =>
      rw [hq] at hp
      have hpx : p = (x, none) := by simpa using hp
      subst hpx
      constructor
      · have hx : x ∈ rows.filter (qualRow thr) := by
          rw [hq]
          exact List.mem_cons_self x xs
        exact (List.mem_filter.mp hx).2
      · intro row hrow hrowq
        have hrowf : row ∈ rows.filter (qualRow thr) := List.mem_filter.mpr ⟨hrow, hrowq⟩
        rw [hq] at hrowf
        rcases List.mem_cons.mp hrowf with h | h
        · rw [h]
        · show x.month ≤ row.month
          have hpair : List.Pairwise (fun a b => a.month < b.month)
              (rows.filter (qualRow thr)) := hsorted.filter _
          rw [hq] at hpair
          have := (List.pairwise_cons.mp hpair).1 row h
          omega

/-! ## The claims -/

/-- Claim C1, counterexample: at analysis year 2024 the heatmap query's
`report_month` filter (src/app.py) selects the serialized period `'113_12'`
— December of ROC year 113 = Y−1911 — which is not among the 12 periods of
`periodsForAnalysisYear 2024`, so the filter does not select exactly those
12 periods; the claim's "in particular it does not select `'{Y-1911}_12'`"
fails for `fetch_heatmap_data`. -/
theorem claim1_counterexample :
    heatmapMonthlyFilter (minguoYearOf 2024) (serializePeriod 113 12) = true ∧
      (113, 12) ∉ periodsForAnalysisYear 2024 := by decide

/-- Claim C1 (amended): for `1912 ≤ Y ≤ 11910` (ROC year of at most four
digits), `periodsForAnalysisYear Y` has exactly 12 periods, strictly
increasing chronologically, from `(Y−1912, 12)` to `(Y−1911, 11)`; among
valid periods with `rocYear ≤ Y−1911`, the probability.py filter selects
exactly those 12 periods, while the app.py heatmap filter selects exactly
those 12 plus `(Y−1911, 12)` — the current December, which the claim said
is never selected. -/
theorem claim1_theorem (Y : Nat) (hY : 1912 ≤ Y) (hY2 : Y ≤ 11910) :
    (periodsForAnalysisYear Y).length = 12 ∧
    List.Chain' periodLt (periodsForAnalysisYear Y) ∧
    (periodsForAnalysisYear Y).head? = some (Y - 1912, 12) ∧
    (periodsForAnalysisYear Y).getLast? = some (Y - 1911, 11) ∧
    (∀ r m, 1 ≤ r → 1 ≤ m → m ≤ 12 → r ≤ Y - 1911 →
      (probMonthlyFilter (minguoYearOf Y) (serializePeriod r m) = true ↔
        (r, m) ∈ periodsForAnalysisYear Y)) ∧
    (∀ r m, 1 ≤ r → 1 ≤ m → m ≤ 12 → r ≤ Y - 1911 →
      (heatmapMonthlyFilter (minguoYearOf Y) (serializePeriod r m) = true ↔
        ((r, m) ∈ periodsForAnalysisYear Y ∨ (r = Y - 1911 ∧ m = 12)))) := by
  refine ⟨rfl, ?_, rfl, ?_, ?_, ?_⟩
  · simp only [periodsForAnalysisYear, List.chain'_cons, List.chain'_singleton,
      and_true, periodLt]
    simp only [true_and]
    omega
  · rfl
  · intro r m hr1 hm1 hm2 hr2
    exact probMonthlyFilter_iff hY hr1 hm1 hm2 hr2
  · intro r m hr1 hm1 hm2 hr2
    exact heatmapMonthlyFilter_iff hY hY2 hr1 hm1 hm2 hr2

/-- Claim C1 witness: the amended theorem applied at Y = 2024, r = 112,
m = 12 (the previous December, which both filters select). -/
theorem claim1_witness :
    probMonthlyFilter (minguoYearOf 2024) (serializePeriod 112 12) = true ↔
      (112, 12) ∈ periodsForAnalysisYear 2024 :=
  (claim1_theorem 2024 (by decide) (by decide)).2.2.2.2.1 112 12
    (by decide) (by decide) (by decide) (by decide)

/-- Claim C2, counterexample: for the valid disclosure period (99, 1) — ROC
year 99 has only two digits — the code's `base_date` computation fails (the
`LEFT(report_month, 3)::int` cast hits the `'_'` separator), so
`announcementDate` as realized by the code is not `2010-02-10` there. -/
theorem claim2_counterexample :
    baseDate (serializePeriod 99 1) = none ∧
      baseDate (serializePeriod 99 1) ≠ some (announcementDateSpec 99 1) := by decide

/-- Claim C2 (amended): for every disclosure period whose ROC year has
exactly three digits (`100 ≤ rocYear ≤ 999`) and `1 ≤ m ≤ 11`, the code's
`base_date` is the Gregorian date `(rocYear + 1911, m + 1, 10)`. -/
theorem claim2_theorem (r m : Nat) (h1 : 100 ≤ r) (h2 : r ≤ 999) (hm1 : 1 ≤ m)
    (hm2 : m ≤ 11) :
    baseDate (serializePeriod r m) = some ⟨r + 1911, m + 1, 10⟩ :=
  baseDate_mid h1 h2 hm1 hm2

/-- Claim C2 witness: period (112, 1) announces 2023-02-10. -/
theorem claim2_witness :
    baseDate (serializePeriod 112 1) = some ⟨2023, 2, 10⟩ :=
  claim2_theorem 112 1 (by decide) (by decide) (by decide) (by decide)

/-- Claim C3, counterexample: for the valid December period (99, 12) the
code's `base_date` computation fails (two-digit ROC year), so the
announcement date does not fall in January of 99 + 1912 = 2011. -/
theorem claim3_counterexample :
    baseDate (serializePeriod 99 12) = none ∧
      baseDate (serializePeriod 99 12) ≠ some (announcementDateSpec 99 12) := by decide

/-- Claim C3 (amended): for every December period whose ROC year has
exactly three digits, the code's `base_date` falls on January 10 of
Gregorian year `rocYear + 1912` (the December carry increments both
years). -/
theorem claim3_theorem (r : Nat) (h1 : 100 ≤ r) (h2 : r ≤ 999) :
    baseDate (serializePeriod r 12) = some ⟨r + 1912, 1, 10⟩ :=
  baseDate_dec h1 h2

/-- Claim C3 witness: `announcementDate((113, 12)) = 2025-01-10`, the
claim's concrete example. -/
theorem claim3_witness :
    baseDate (serializePeriod 113 12) = some ⟨2025, 1, 10⟩ :=
  claim3_theorem 113 (by decide) (by decide)

/-- Claim C4, counterexample: at the spec's boundary year Y = 1912 the
period (0, 12) is in `periodsForAnalysisYear 1912`, but the code's
`base_date` on its serialization `'0_12'` fails, so its announcement date
does not fall in 1912 (it does not exist at all). -/
theorem claim4_counterexample :
    (0, 12) ∈ periodsForAnalysisYear 1912 ∧
      baseDate (serializePeriod 0 12) = none := by decide

/-- Claim C4 (amended): for `2012 ≤ Y ≤ 2910` (every period of the analysis
year has a three-digit ROC year), each of the 12 periods of
`periodsForAnalysisYear Y` has an announcement `base_date`, and that date
falls within calendar year Y. -/
theorem claim4_theorem (Y : Nat) (h1 : 2012 ≤ Y) (h2 : Y ≤ 2910) :
    ∀ p ∈ periodsForAnalysisYear Y,
      ∃ d, baseDate (serializePeriod p.1 p.2) = some d ∧ d.year = Y := by
  intro p hp
  simp only [periodsForAnalysisYear, List.mem_cons, List.not_mem_nil, or_false] at hp
  rcases hp with h | h | h | h | h | h | h | h | h | h | h | h <;> subst h
  · exact ⟨⟨Y - 1912 + 1912, 1, 10⟩, baseDate_dec (by omega) (by omega),
      by show Y - 1912 + 1912 = Y; omega⟩
  all_goals exact ⟨⟨Y - 1911 + 1911, _, 10⟩,
    baseDate_mid (by omega) (by omega) (by omega) (by omega),
    by show Y - 1911 + 1911 = Y; omega⟩

/-- Claim C4 witness: at Y = 2024 the first period (112, 12) announces on
2024-01-10, inside 2024. -/
theorem claim4_witness :
    ∃ d, baseDate (serializePeriod 112 12) = some d ∧ d.year = 2024 :=
  claim4_theorem 2024 (by decide) (by decide) (112, 12) (by decide)

/-- Claim C5, counterexample: the trading date exactly 3 days before the
anchor is counted by the code in `pre_week` and not in `announce_week`,
while the spec's half-open `[start, end)` windows put it in the
announcement week and not in the pre-week. -/
theorem claim5_counterexample :
    preWeekWindow 0 (-3) ∧ ¬ specPreWeekWindow 0 (-3) ∧
      specAnnounceWeekWindow 0 (-3) ∧ ¬ announceWeekWindow 0 (-3) := by
  refine ⟨⟨by decide, by decide⟩, fun hc => ?_, ⟨by decide, by decide⟩, fun hc => ?_⟩
  · rw [specPreWeekWindow] at hc
    exact absurd hc.2 (by decide)
  · rw [announceWeekWindow] at hc
    exact absurd hc.1 (by decide)

/-- Claim C5 (amended): the code's four windows are pre-week =
`[anchor−9d, anchor−3d]` (closed at both ends), announcement-week =
`(anchor−3d, anchor+4d]`, post-week = `(anchor+4d, anchor+11d]`,
post-month = `(anchor+11d, anchor+30d]` — right-closed rather than the
spec's `[start, end)`; they are pairwise disjoint and cover
`[anchor−9d, anchor+30d]`, so each trading date there is counted in
exactly one window. -/
theorem claim5_theorem (a d : ℤ) :
    (preWeekWindow a d ↔ a - 9 ≤ d ∧ d ≤ a - 3) ∧
    (announceWeekWindow a d ↔ a - 3 < d ∧ d ≤ a + 4) ∧
    (afterWeekWindow a d ↔ a + 4 < d ∧ d ≤ a + 11) ∧
    (afterMonthWindow a d ↔ a + 11 < d ∧ d ≤ a + 30) ∧
    ((preWeekWindow a d ∨ announceWeekWindow a d ∨ afterWeekWindow a d ∨
        afterMonthWindow a d) ↔ (a - 9 ≤ d ∧ d ≤ a + 30)) ∧
    ¬ (preWeekWindow a d ∧ announceWeekWindow a d) ∧
    ¬ (preWeekWindow a d ∧ afterWeekWindow a d) ∧
    ¬ (preWeekWindow a d ∧ afterMonthWindow a d) ∧
    ¬ (announceWeekWindow a d ∧ afterWeekWindow a d) ∧
    ¬ (announceWeekWindow a d ∧ afterMonthWindow a d) ∧
    ¬ (afterWeekWindow a d ∧ afterMonthWindow a d) := by
  unfold preWeekWindow announceWeekWindow afterWeekWindow afterMonthWindow
  omega

/-- Claim C5 witness: the amended theorem at anchor 0, date 0 (inside the
announcement week). -/
theorem claim5_witness :
    announceWeekWindow 0 0 ↔ (0 : ℤ) - 3 < 0 ∧ (0 : ℤ) ≤ 0 + 4 :=
  (claim5_theorem 0 0).2.1

/-- Claim C6, counterexample: the valid disclosure period (9, 5) —
rocYear = 9 ≥ 1, month 5 — satisfies the declared invariants, but the
code's announcement-date computation fails on it (the `LEFT(report_month,
3)::int` cast hits the `'_'` separator), so an error condition is reachable
inside the declared input domain. -/
theorem claim6_counterexample :
    (baseDate (serializePeriod 9 5)).isSome = false := by decide

/-- Claim C6 (amended): `periodsForAnalysisYear` is total for every year
`Y ≥ 1912` (it always returns its 12 periods), and the code's
announcement-date computation returns a value for every disclosure period
whose ROC year has exactly three digits. -/
theorem claim6_theorem :
    (∀ Y, 1912 ≤ Y → (periodsForAnalysisYear Y).length = 12) ∧
    (∀ r m, 100 ≤ r → r ≤ 999 → 1 ≤ m → m ≤ 12 →
      (baseDate (serializePeriod r m)).isSome = true) := by
  constructor
  · intro Y _
    rfl
  · intro r m h1 h2 hm1 hm2
    by_cases h12 : m = 12
    · rw [h12, baseDate_dec h1 h2]
      rfl
    · rw [baseDate_mid h1 h2 hm1 (by omega)]
      rfl

/-- Claim C6 witness: both totality statements at concrete inputs. -/
theorem claim6_witness :
    (periodsForAnalysisYear 2024).length = 12 ∧
      (baseDate (serializePeriod 113 7)).isSome = true :=
  ⟨claim6_theorem.1 2024 (by decide),
   claim6_theorem.2 113 7 (by decide) (by decide) (by decide) (by decide)⟩

/-- Claim C7: at the ROC-epoch boundary year 1912 the code computes
`prev_minguo_year = 0` without failure, `periodsForAnalysisYear 1912`
starts with (0, 12) followed by (1, 1) … (1, 11), and the probability.py
filter does select the serialized boundary period `'0_12'`. -/
theorem claim7_theorem :
    prevMinguoYearOf 1912 = 0 ∧
    periodsForAnalysisYear 1912 =
      [(0, 12), (1, 1), (1, 2), (1, 3), (1, 4), (1, 5), (1, 6), (1, 7), (1, 8),
       (1, 9), (1, 10), (1, 11)] ∧
    probMonthlyFilter (minguoYearOf 1912) (serializePeriod 0 12) = true := by decide

/-- Claim C8 (code bug): the two return-bin CASE expressions of src/app.py
are not equivalent. For an annual return of −50% (year_open 100, year_close
50) the heatmap query labels the stock `'02. 下跌-40%至-60%'` while the
deep-dive detail query labels it `'00. 下跌'`; since the deep-dive filters
rows by equality with the bin selected from the heatmap pivot, no decline
bin selected there can match any row. The positive bins disagree as well:
for +150% the heatmap yields `'15. 150-250%'` (its `LPAD(..., 2, '0')`
truncates `'150'` to `'15'`) and the detail query `'01. 100-200%'`, and
even the 1000%-plus labels differ (`'11. 漲幅1000%+'` vs `'11. 1000%+'`). -/
theorem claim8_theorem :
    heatmapReturnBin 100 50 = "02. 下跌-40%至-60%" ∧
    detailReturnBin 100 50 = "00. 下跌" ∧
    heatmapReturnBin 100 50 ≠ detailReturnBin 100 50 ∧
    heatmapReturnBin 100 250 = "15. 150-250%" ∧
    detailReturnBin 100 250 = "01. 100-200%" ∧
    heatmapReturnBin 100 2100 = "11. 漲幅1000%+" ∧
    detailReturnBin 100 2100 = "11. 1000%+" := by
  have h1 : heatmapReturnBin 100 50 = "02. 下跌-40%至-60%" := by
    rw [heatmapReturnBin, if_neg (by norm_num), if_neg (by norm_num),
      if_pos (by norm_num)]
  have h2 : detailReturnBin 100 50 = "00. 下跌" := by
    rw [detailReturnBin, if_pos (by norm_num)]
  have h3 : heatmapReturnBin 100 250 = "15. 150-250%" := by
    rw [heatmapReturnBin, if_neg (by norm_num), if_neg (by norm_num),
      if_neg (by norm_num), if_neg (by norm_num), if_neg (by norm_num),
      if_neg (by norm_num)]
    have hf : (((250 : ℚ) - 100) / 100 * 100).floor = 150 := by norm_num [Rat.floor]
    rw [hf]
    decide
  have h4 : detailReturnBin 100 250 = "01. 100-200%" := by
    rw [detailReturnBin, if_neg (by norm_num), if_neg (by norm_num)]
    have hf : (((250 : ℚ) - 100) / 100).floor = 1 := by norm_num [Rat.floor]
    rw [hf]
    decide
  have h5 : heatmapReturnBin 100 2100 = "11. 漲幅1000%+" := by
    rw [heatmapReturnBin, if_neg (by norm_num), if_neg (by norm_num),
      if_neg (by norm_num), if_neg (by norm_num), if_neg (by norm_num),
      if_pos (by norm_num)]
  have h6 : detailReturnBin 100 2100 = "11. 1000%+" := by
    rw [detailReturnBin, if_neg (by norm_num), if_pos (by norm_num)]
  refine ⟨h1, h2, ?_, h3, h4, h5, h6⟩
  rw [h1, h2]
  decide

/-- Claim C9: in insider_study.py the `LAG` of `first_events` ranges over
the already-thresholded rows, so every non-NULL `prev_yoy` is itself at or
above the threshold; `filtered_first` therefore keeps exactly the rows with
`prev_yoy IS NULL`, i.e. for each stock the single chronologically first
qualifying report month (when one exists); `fetch_timing_data`'s
`spark_events`, which applies `LAG` before the threshold filter, instead
keeps every month whose immediately preceding row was below the threshold,
as the concrete series `exampleRevRows` separates: months [1, 4] versus
month [1] alone. -/
theorem claim9_theorem (thr : ℚ) (rows : List RevRow)
    (hsorted : List.Pairwise (fun a b => a.month < b.month) rows) :
    (∀ p ∈ firstEvents thr rows, ∀ v, p.2 = some v → thr ≤ v) ∧
    filteredFirst thr rows =
      ((rows.filter (qualRow thr)).take 1).map (fun row => (row, none)) ∧
    (rows.filter (qualRow thr) ≠ [] → (filteredFirst thr rows).length = 1) ∧
    (∀ p ∈ filteredFirst thr rows, qualRow thr p.1 = true ∧
      ∀ row ∈ rows, qualRow thr row = true → p.1.month ≤ row.month) ∧
    ((sparkEvents 100 exampleRevRows).map (fun p => p.1.month) = [1, 4] ∧
      (filteredFirst 100 exampleRevRows).map (fun p => p.1.month) = [1]) := by
  refine ⟨firstEvents_prev_ge thr rows, filteredFirst_eq thr rows, ?_,
    filteredFirst_minimal thr rows hsorted, by decide, by decide⟩
  intro hne
  rw [filteredFirst_eq]
  cases hq : rows.filter (qualRow thr) with
  | nil => exact absurd hq hne
  | cons x xs => rfl

/-- Claim C9 witness: the theorem applied to the concrete sorted series
`exampleRevRows` with threshold 100. -/
theorem claim9_witness :
    filteredFirst 100 exampleRevRows =
      ((exampleRevRows.filter (qualRow 100)).take 1).map (fun row => (row, none)) :=
  (claim9_theorem 100 exampleRevRows (by decide)).2.1

/-- Claim C10: the `base_date` computation of `fetch_timing_data` parses
the ROC year as the first three characters and the month as the last two
characters of `report_month`; it agrees with the spec's `announcementDate`
formula exactly on three-digit ROC years: (1) for `100 ≤ rocYear ≤ 999` it
yields the spec's date; (2) for `1 ≤ rocYear < 100` the `::int` cast fails
(the cast string contains the `'_'` separator); (3) it also fails on the
period (0, 12) arising from analysis year 1912; (4) for `rocYear ≥ 1000`
any date it yields has a Gregorian year different from the spec's, so the
computation is not total (nor correct) over the declared domain
`rocYear ≥ 1`. -/
theorem claim10_theorem :
    (∀ r m, 100 ≤ r → r ≤ 999 → 1 ≤ m → m ≤ 12 →
      baseDate (serializePeriod r m) = some (announcementDateSpec r m)) ∧
    (∀ r m, 1 ≤ r → r < 100 → m ≤ 12 → baseDate (serializePeriod r m) = none) ∧
    baseDate (serializePeriod 0 12) = none ∧
    (∀ r m d, 1000 ≤ r → m ≤ 12 → baseDate (serializePeriod r m) = some d →
      d.year ≠ (announcementDateSpec r m).year) := by
  refine ⟨?_, ?_, by decide, ?_⟩
  · intro r m h1 h2 hm1 hm2
    by_cases h12 : m = 12
    · rw [h12, baseDate_dec h1 h2, announcementDateSpec, if_pos rfl]
    · rw [baseDate_mid h1 h2 hm1 (by omega), announcementDateSpec, if_neg h12]
  · intro r m _ h2 hm
    exact baseDate_small_none h2 hm
  · intro r m d h1 hm h
    exact baseDate_big_year h1 hm h

/-- Claim C10 witness: agreement at (113, 11) — announcement 2024-12-10 —
and cast failure at the two-digit ROC year period (99, 3). -/
theorem claim10_witness :
    baseDate (serializePeriod 113 11) = some (announcementDateSpec 113 11) ∧
      baseDate (serializePeriod 99 3) = none :=
  ⟨claim10_theorem.1 113 11 (by decide) (by decide) (by decide) (by decide),
   claim10_theorem.2.1 99 3 (by decide) (by decide) (by decide)⟩
